import Mathlib

/-!
# memlog.c : a logging shim around the four allocator entry points

Shallow embedding of `src/lib/memlog.c`.

* Pointers are addresses (`Nat`), `NULL` is address 0.
* `size_t` values are naturals below `2 ^ bits`; the one arithmetic operation of
  the file (`nitems * size` in `__wrap_calloc`) is reduced modulo `2 ^ bits`.
* The real allocator (`__real_malloc`, `__real_calloc`, `__real_realloc`,
  `__real_free`, and the usable-size query behind `MSIZE`) is a parameter:
  a record of state-passing functions over an arbitrary allocator state.
* `MSIZE` is the `__linux__` branch of the source, `malloc_usable_size`.
* The function-local `static FILE* log` is the field `World.log`:
  `none` is the null stream, `some rows` is an open stream together with the
  texts written to it so far, one list entry per `fprintf` call.
* The stream functions `fopen` and `fprintf` run in the same process and may
  take memory from the same heap (the stream object, its buffer): their
  action on the allocator state is a parameter too.
* A write through the null stream is a fault: the result of the enclosing
  function is `none`. The source has no test of the value `fopen` returns.
* `%d` is given a `size_t`: the text is that of the low 32 bits read as a
  signed `int`.
* `World.trace` is a ghost record of the calls the shim makes, in program
  order; the stream calls are counted in `World.opens` and `World.log`.
* Concurrent callers are threads stepping through the four statements of
  `write_mem_log` one statement at a time, in the order a schedule gives.
-/

namespace Memlog

/-- Addresses. -/
abbrev Ptr := Nat

/-- The null pointer. -/
def NULL : Ptr := 0

/-- One entry of the ghost call record: a call to the real allocator, a
usable-size query, or an emission request (a call of `write_mem_log` with its
four arguments). -/
inductive Call where
  | real_malloc (size : Nat)
  | real_calloc (nitems size : Nat)
  | real_realloc (ptr : Ptr) (size : Nat)
  | real_free (ptr : Ptr)
  | msize (ptr : Ptr)
  | write_mem_log (operation caller : String) (ptr : Ptr) (size : Nat)
  deriving DecidableEq

/-- What the shim is linked against: the real allocator, the platform's
`size_t` width and `%p` rendering, the stream library's use of the heap, and
whether `fopen(MEMLOGFILE, "w")` succeeds. -/
structure Env (σ : Type) where
  /-- Width of `size_t` in bits. -/
  bits : Nat
  /-- The function `__real_malloc(size)`: the pointer returned and the new allocator state. -/
  real_malloc : σ → Nat → Ptr × σ
  /-- The function `__real_calloc(nitems, size)`. -/
  real_calloc : σ → Nat → Nat → Ptr × σ
  /-- The function `__real_realloc(ptr, size)`. -/
  real_realloc : σ → Ptr → Nat → Ptr × σ
  /-- The function `__real_free(ptr)`. -/
  real_free : σ → Ptr → σ
  /-- Usable size of a live block, as the allocator reports it. -/
  usable : σ → Ptr → Nat
  /-- Whether `fopen(MEMLOGFILE, "w")` returns a stream. -/
  fopen_ok : Bool
  /-- What a call of `fopen` does to the allocator state. -/
  fopen_heap : σ → σ
  /-- What a call of `fprintf` does to the allocator state, given the texts
  already written to the stream. -/
  fprintf_heap : σ → List String → σ
  /-- Text produced by the `%p` conversion. -/
  fmt_p : Ptr → String

/-- Process state seen by the shim. -/
structure World (σ : Type) where
  /-- State of the real allocator. -/
  heap : σ
  /-- The `static FILE* log` of `write_mem_log`. -/
  log : Option (List String)
  /-- Number of `fopen` calls made so far. -/
  opens : Nat
  /-- Ghost record of calls, oldest first. -/
  trace : List Call
  deriving DecidableEq

variable {σ : Type}

/-- The library function `malloc_usable_size(ptr)` of glibc: 0 for a null pointer, otherwise the
usable size of the block. -/
def malloc_usable_size (E : Env σ) (h : σ) (ptr : Ptr) : Nat :=
  if ptr = NULL then 0 else E.usable h ptr

/-- The macro `MSIZE(ptr)`, `__linux__` branch (memlog.c line 7). -/
def MSIZE (E : Env σ) (w : World σ) (ptr : Ptr) : Nat × World σ :=
  (malloc_usable_size E w.heap ptr, { w with trace := w.trace ++ [Call.msize ptr] })

/-- The `%d` conversion applied to a `size_t` argument: `%d` consumes an `int`,
so the low 32 bits of the argument are printed as a two's-complement value. -/
def fmt_d (size : Nat) : String :=
  let lo := size % 2 ^ 32
  if lo < 2 ^ 31 then toString lo else "-" ++ toString (2 ^ 32 - lo)

/-- The header line written when the log is opened (memlog.c line 32). -/
def header : String := "op,caller,ptr,size\n"

/-- Text produced by the format `"%s,%s,%p,%d\n"` (memlog.c line 35). -/
def row (E : Env σ) (operation caller : String) (ptr : Ptr) (size : Nat) : String :=
  operation ++ "," ++ caller ++ "," ++ E.fmt_p ptr ++ "," ++ fmt_d size ++ "\n"

/-- The call `fopen(MEMLOGFILE, "w")` assigned to `log`: an empty open stream
on the truncated file, or the null stream when the destination cannot be
opened. -/
def fopen (E : Env σ) (w : World σ) : World σ :=
  { w with heap := E.fopen_heap w.heap,
           log := if E.fopen_ok then some [] else none,
           opens := w.opens + 1 }

/-- The call `fprintf(log, ...)` with the already formatted text: appends to the open
stream; faults on the null stream. -/
def fprintf (E : Env σ) (w : World σ) (text : String) : Option (World σ) :=
  match w.log with
  | none => none
  | some rows => some { w with heap := E.fprintf_heap w.heap rows, log := some (rows ++ [text]) }

/-- The function `write_mem_log` (memlog.c lines 24-39). -/
def write_mem_log (E : Env σ) (operation caller : String) (ptr : Ptr) (size : Nat)
    (w : World σ) : Option (World σ) :=
  let w := { w with trace := w.trace ++ [Call.write_mem_log operation caller ptr size] }
  let opened := if w.log.isNone then fprintf E (fopen E w) header else some w
  opened.bind fun w => fprintf E w (row E operation caller ptr size)

/-- The call `__real_malloc(size)`. -/
def __real_malloc (E : Env σ) (size : Nat) (w : World σ) : Ptr × World σ :=
  ((E.real_malloc w.heap size).1,
   { w with heap := (E.real_malloc w.heap size).2, trace := w.trace ++ [Call.real_malloc size] })

/-- The function `__wrap_malloc` (memlog.c lines 42-49). -/
def __wrap_malloc (E : Env σ) (size : Nat) (w : World σ) : Option (Ptr × World σ) :=
  let (ptr, w) := __real_malloc E size w
  (write_mem_log E "+" "m" ptr size w).bind fun w => some (ptr, w)

/-- The call `__real_calloc(nitems, size)`. -/
def __real_calloc (E : Env σ) (nitems size : Nat) (w : World σ) : Ptr × World σ :=
  ((E.real_calloc w.heap nitems size).1,
   { w with heap := (E.real_calloc w.heap nitems size).2,
            trace := w.trace ++ [Call.real_calloc nitems size] })

/-- The call `__real_realloc(ptr, size)`. -/
def __real_realloc (E : Env σ) (ptr : Ptr) (size : Nat) (w : World σ) : Ptr × World σ :=
  ((E.real_realloc w.heap ptr size).1,
   { w with heap := (E.real_realloc w.heap ptr size).2,
            trace := w.trace ++ [Call.real_realloc ptr size] })

/-- The call `__real_free(ptr)`. -/
def __real_free (E : Env σ) (ptr : Ptr) (w : World σ) : World σ :=
  { w with heap := E.real_free w.heap ptr, trace := w.trace ++ [Call.real_free ptr] }

/-- The function `__wrap_calloc` (memlog.c lines 52-59); `nitems * size` is a
`size_t` product. -/
def __wrap_calloc (E : Env σ) (nitems size : Nat) (w : World σ) : Option (Ptr × World σ) :=
  let (ptr, w) := __real_calloc E nitems size w
  (write_mem_log E "+" "c" ptr (nitems * size % 2 ^ E.bits) w).bind fun w => some (ptr, w)

/-- The function `__wrap_realloc` (memlog.c lines 62-72). -/
def __wrap_realloc (E : Env σ) (ptr : Ptr) (size : Nat) (w : World σ) :
    Option (Ptr × World σ) :=
  let (orig_size, w) := MSIZE E w ptr
  (write_mem_log E "-" "r" ptr orig_size w).bind fun w =>
    let (ptr, w) := __real_realloc E ptr size w
    (write_mem_log E "+" "r" ptr size w).bind fun w => some (ptr, w)

/-- The function `__wrap_free` (memlog.c lines 75-82). -/
def __wrap_free (E : Env σ) (ptr : Ptr) (w : World σ) : Option (World σ) :=
  let (size, w) := MSIZE E w ptr
  (write_mem_log E "-" "f" ptr size w).bind fun w => some (__real_free E ptr w)

/-! ## Callers: sequences of intercepted calls -/

/-- One call made by the application. -/
inductive Op where
  | malloc (size : Nat)
  | calloc (nitems size : Nat)
  | realloc (ptr : Ptr) (size : Nat)
  | free (ptr : Ptr)
  deriving DecidableEq

/-- What a call hands back to the application: a pointer, or nothing for `free`. -/
inductive Res where
  | ptr (p : Ptr)
  | void
  deriving DecidableEq

/-- The application's call routed to the shim. -/
def wrap_step (E : Env σ) (op : Op) (w : World σ) : Option (Res × World σ) :=
  match op with
  | .malloc size => (__wrap_malloc E size w).map fun r => (Res.ptr r.1, r.2)
  | .calloc nitems size => (__wrap_calloc E nitems size w).map fun r => (Res.ptr r.1, r.2)
  | .realloc ptr size => (__wrap_realloc E ptr size w).map fun r => (Res.ptr r.1, r.2)
  | .free ptr => (__wrap_free E ptr w).map fun w => (Res.void, w)

/-- The same call made on the real allocator directly. -/
def real_step (E : Env σ) (op : Op) (h : σ) : Res × σ :=
  match op with
  | .malloc size => (Res.ptr (E.real_malloc h size).1, (E.real_malloc h size).2)
  | .calloc nitems size =>
      (Res.ptr (E.real_calloc h nitems size).1, (E.real_calloc h nitems size).2)
  | .realloc ptr size => (Res.ptr (E.real_realloc h ptr size).1, (E.real_realloc h ptr size).2)
  | .free ptr => (Res.void, E.real_free h ptr)

/-- A sequence of calls through the shim: the results in call order and the
final state, or `none` if a call faults. -/
def run_wrapped (E : Env σ) : List Op → World σ → Option (List Res × World σ)
  | [], w => some ([], w)
  | op :: ops, w =>
      (wrap_step E op w).bind fun r =>
        (run_wrapped E ops r.2).map fun rs => (r.1 :: rs.1, rs.2)

/-- The same sequence of calls on the real allocator directly. -/
def run_real (E : Env σ) : List Op → σ → List Res × σ
  | [], h => ([], h)
  | op :: ops, h =>
      ((real_step E op h).1 :: (run_real E ops (real_step E op h).2).1,
       (run_real E ops (real_step E op h).2).2)

/-- The real-allocator call that corresponds to an application call, with the
same arguments. -/
def Op.real_call : Op → Call
  | .malloc size => Call.real_malloc size
  | .calloc nitems size => Call.real_calloc nitems size
  | .realloc ptr size => Call.real_realloc ptr size
  | .free ptr => Call.real_free ptr

/-- Whether a recorded call is a call to the real allocator's four entry points. -/
def Call.is_real : Call → Bool
  | .real_malloc _ => true
  | .real_calloc _ _ => true
  | .real_realloc _ _ => true
  | .real_free _ => true
  | .msize _ => false
  | .write_mem_log _ _ _ _ => false

/-! ## What a call is expected to do -/

/-- The rows already in the stream once it is open: what was written so far,
or just the header when the stream is opened by this request. -/
def stream_rows (w : World σ) : List String :=
  match w.log with
  | some rows => rows
  | none => [header]

/-- Number of `fopen` calls after an emission request. -/
def opens_after (w : World σ) : Nat :=
  if w.log.isNone then w.opens + 1 else w.opens

/-- Whether an emission request can reach an open stream: the stream is
already open, or the destination can be opened. -/
def can_log (E : Env σ) (w : World σ) : Bool :=
  w.log.isSome || E.fopen_ok

/-- Allocator state after the stream calls of one emission request made on
allocator state `h` with the stream in state `log`: one `fprintf` on an open
stream; `fopen` and two `fprintf` on an unopened one. -/
def emit_heap (E : Env σ) (h : σ) (log : Option (List String)) : σ :=
  match log with
  | some rows => E.fprintf_heap h rows
  | none => E.fprintf_heap (E.fprintf_heap (E.fopen_heap h) []) [header]

/-- Allocator state on which the wrapper's call to the real allocator is
made: the state the wrapper starts from for `malloc` and `calloc`, the state
after the first emission for `realloc` and `free`. -/
def call_heap (E : Env σ) (op : Op) (w : World σ) : σ :=
  match op with
  | .malloc _ => w.heap
  | .calloc _ _ => w.heap
  | .realloc _ _ => emit_heap E w.heap w.log
  | .free _ => emit_heap E w.heap w.log

/-- The data rows one call contributes to the log. -/
def op_rows (E : Env σ) (op : Op) (w : World σ) : List String :=
  match op with
  | .malloc size => [row E "+" "m" (E.real_malloc w.heap size).1 size]
  | .calloc nitems size =>
      [row E "+" "c" (E.real_calloc w.heap nitems size).1 (nitems * size % 2 ^ E.bits)]
  | .realloc ptr size =>
      [row E "-" "r" ptr (malloc_usable_size E w.heap ptr),
       row E "+" "r" (E.real_realloc (emit_heap E w.heap w.log) ptr size).1 size]
  | .free ptr => [row E "-" "f" ptr (malloc_usable_size E w.heap ptr)]

/-- The calls one application call is expected to cause, in order. -/
def op_trace (E : Env σ) (op : Op) (w : World σ) : List Call :=
  match op with
  | .malloc size =>
      [Call.real_malloc size, Call.write_mem_log "+" "m" (E.real_malloc w.heap size).1 size]
  | .calloc nitems size =>
      [Call.real_calloc nitems size,
       Call.write_mem_log "+" "c" (E.real_calloc w.heap nitems size).1
         (nitems * size % 2 ^ E.bits)]
  | .realloc ptr size =>
      [Call.msize ptr,
       Call.write_mem_log "-" "r" ptr (malloc_usable_size E w.heap ptr),
       Call.real_realloc ptr size,
       Call.write_mem_log "+" "r" (E.real_realloc (emit_heap E w.heap w.log) ptr size).1 size]
  | .free ptr =>
      [Call.msize ptr,
       Call.write_mem_log "-" "f" ptr (malloc_usable_size E w.heap ptr),
       Call.real_free ptr]

/-- Allocator state one application call is expected to leave. -/
def op_heap (E : Env σ) (op : Op) (w : World σ) : σ :=
  match op with
  | .malloc size => emit_heap E (E.real_malloc w.heap size).2 w.log
  | .calloc nitems size => emit_heap E (E.real_calloc w.heap nitems size).2 w.log
  | .realloc ptr size =>
      E.fprintf_heap (E.real_realloc (emit_heap E w.heap w.log) ptr size).2
        (stream_rows w ++ [row E "-" "r" ptr (malloc_usable_size E w.heap ptr)])
  | .free ptr => E.real_free (emit_heap E w.heap w.log) ptr

/-- State one application call is expected to leave. -/
def op_world (E : Env σ) (op : Op) (w : World σ) : World σ :=
  { heap := op_heap E op w,
    log := some (stream_rows w ++ op_rows E op w),
    opens := opens_after w,
    trace := w.trace ++ op_trace E op w }

/-- What one application call is expected to return: the value of the
wrapper's call to the real allocator. -/
def op_result (E : Env σ) (op : Op) (w : World σ) : Res :=
  (real_step E op (call_heap E op w)).1

/-- The expected results of a sequence of calls, in call order. -/
def results_of (E : Env σ) : List Op → World σ → List Res
  | [], _ => []
  | op :: ops, w => op_result E op w :: results_of E ops (op_world E op w)

/-- The data rows of a sequence of calls, in call order. -/
def rows_of (E : Env σ) : List Op → World σ → List String
  | [], _ => []
  | op :: ops, w => op_rows E op w ++ rows_of E ops (op_world E op w)

/-- The calls a sequence of application calls is expected to cause. -/
def trace_of (E : Env σ) : List Op → World σ → List Call
  | [], _ => []
  | op :: ops, w => op_trace E op w ++ trace_of E ops (op_world E op w)

/-- Allocator state a sequence of calls is expected to leave. -/
def heap_of (E : Env σ) : List Op → World σ → σ
  | [], w => w.heap
  | op :: ops, w => heap_of E ops (op_world E op w)

/-- The stream functions leave the allocator state as it is. -/
def quiet_stdio (E : Env σ) : Prop :=
  (∀ h, E.fopen_heap h = h) ∧ (∀ h rows, E.fprintf_heap h rows = h)

/-- Number of `malloc` calls in a sequence. -/
def count_malloc (ops : List Op) : Nat :=
  ops.countP fun op => match op with
    | .malloc _ => true
    | _ => false

/-- Number of `calloc` calls in a sequence. -/
def count_calloc (ops : List Op) : Nat :=
  ops.countP fun op => match op with
    | .calloc _ _ => true
    | _ => false

/-- Number of `realloc` calls in a sequence. -/
def count_realloc (ops : List Op) : Nat :=
  ops.countP fun op => match op with
    | .realloc _ _ => true
    | _ => false

/-- Number of `free` calls in a sequence. -/
def count_free (ops : List Op) : Nat :=
  ops.countP fun op => match op with
    | .free _ => true
    | _ => false

/-- A text is one line: it has exactly one newline character, at its end. -/
def is_line (s : String) : Prop :=
  s.data.count '\n' = 1 ∧ s.data.getLast? = some '\n'

/-! ## Concurrent callers of `write_mem_log` -/

/-- The arguments of one call of `write_mem_log`. -/
structure Event where
  operation : String
  caller : String
  ptr : Ptr
  size : Nat
  deriving DecidableEq

/-- The row an emission request writes. -/
def Event.line (E : Env σ) (ev : Event) : String :=
  row E ev.operation ev.caller ev.ptr ev.size

/-- The statement of `write_mem_log` a thread executes next: the test of
line 29, the `fopen` of line 31, the header write of line 32, the row write
of line 35. -/
inductive Pc where
  | l29
  | l31
  | l32
  | l35
  deriving DecidableEq

/-- A thread inside the shim: the emission requests it still has to make, and
the statement it is at in the first of them. -/
structure Thread where
  pc : Pc
  todo : List Event
  deriving DecidableEq

/-- One statement of `write_mem_log` executed by a thread on the shared
state. The test of line 29 reads the shared `log`; lines 31, 32 and 35 are
the calls of the function itself. A thread with nothing left to do stays put. -/
def step_thread (E : Env σ) (t : Thread) (w : World σ) : Option (Thread × World σ) :=
  match t.todo with
  | [] => some (t, w)
  | ev :: rest =>
      match t.pc with
      | .l29 =>
          some ({ t with pc := if w.log.isNone then .l31 else .l35 },
                { w with trace := w.trace ++
                    [Call.write_mem_log ev.operation ev.caller ev.ptr ev.size] })
      | .l31 => some ({ t with pc := .l32 }, fopen E w)
      | .l32 => (fprintf E w header).map fun w => ({ t with pc := .l35 }, w)
      | .l35 => (fprintf E w (ev.line E)).map fun w => ({ pc := .l29, todo := rest }, w)

/-- Threads run under a schedule: each entry names the thread that executes
its next statement. -/
def run_sched (E : Env σ) : List Nat → List Thread → World σ → Option (List Thread × World σ)
  | [], ts, w => some (ts, w)
  | i :: is, ts, w =>
      match ts[i]? with
      | none => run_sched E is ts w
      | some t => (step_thread E t w).bind fun r => run_sched E is (ts.set i r.1) r.2

/-- The schedule of one whole call of `write_mem_log` by thread `i` with no
other thread in between: four statements when the log is unopened, two
(test and row write) when it is open. -/
def call_sched (w : World σ) (i : Nat) : List Nat :=
  if w.log.isNone then [i, i, i, i] else [i, i]

/-- Requests that do not overlap: the threads named in `order` each run one
whole call, one after the other. -/
def run_serial (E : Env σ) : List Nat → List Thread → World σ → Option (List Thread × World σ)
  | [], ts, w => some (ts, w)
  | i :: is, ts, w => (run_sched E (call_sched w i) ts w).bind fun r => run_serial E is r.1 r.2

/-- The request thread `i` makes next, when the thread exists, is at the
start of a call and has a request left; and the threads once it is made. -/
def pick (i : Nat) (ts : List Thread) : Option (Event × List Thread) :=
  match ts[i]? with
  | none => none
  | some t =>
      match t.pc, t.todo with
      | .l29, ev :: rest => some (ev, ts.set i { pc := .l29, todo := rest })
      | _, _ => none

/-- The requests made, in order, when the threads named in `order` each make
their next request. -/
def picks : List Nat → List Thread → Option (List Event)
  | [], _ => some []
  | i :: is, ts => (pick i ts).bind fun r => (picks is r.2).map fun evs => r.1 :: evs

/-! ## A concrete platform, for evaluation -/

/-- State of a small bump allocator: next free address and the live blocks
with their usable sizes. -/
structure Bump where
  next : Nat
  live : List (Ptr × Nat)
  deriving DecidableEq

/-- Usable size granted for a request: the request rounded up to a multiple of 8. -/
def Bump.round (n : Nat) : Nat := (n + 7) / 8 * 8

/-- Largest request the bump allocator serves. -/
def Bump.cap : Nat := 1000000

/-- Allocation in the bump allocator; too large a request gives `NULL`. -/
def Bump.malloc (h : Bump) (n : Nat) : Ptr × Bump :=
  if n > Bump.cap then (NULL, h)
  else (h.next, { next := h.next + Bump.round n + 16, live := (h.next, Bump.round n) :: h.live })

/-- Release in the bump allocator. -/
def Bump.free (h : Bump) (p : Ptr) : Bump :=
  { h with live := h.live.filter fun b => b.1 ≠ p }

/-- Usable size of a block in the bump allocator; 0 when the block is not live. -/
def Bump.usable (h : Bump) (p : Ptr) : Nat :=
  match h.live.find? fun b => b.1 = p with
  | some b => b.2
  | none => 0

/-- Resize in the bump allocator: a failed resize keeps the old block. -/
def Bump.realloc (h : Bump) (p : Ptr) (n : Nat) : Ptr × Bump :=
  if n > Bump.cap then (NULL, h) else Bump.malloc (Bump.free h p) n

/-- Rendering of `%p` as glibc does it. -/
def glibc_fmt_p (p : Ptr) : String :=
  if p = 0 then "(nil)" else "0x" ++ String.mk (Nat.toDigits 16 p)

/-- A 64-bit platform with the bump allocator, whose stream library takes the
stream object (472 bytes) at `fopen` and a 4096-byte buffer at the first
write from the same heap; `ok` says whether the log destination can be
opened. -/
def demo (ok : Bool) : Env Bump where
  bits := 64
  real_malloc := Bump.malloc
  real_calloc := fun h c s => if c * s < 2 ^ 64 then Bump.malloc h (c * s) else (NULL, h)
  real_realloc := Bump.realloc
  real_free := Bump.free
  usable := Bump.usable
  fopen_ok := ok
  fopen_heap := fun h => (Bump.malloc h 472).2
  fprintf_heap := fun h rows => if rows = [] then (Bump.malloc h 4096).2 else h
  fmt_p := glibc_fmt_p

/-- The same platform with a stream library that keeps off the heap. -/
def quiet : Env Bump where
  bits := 64
  real_malloc := Bump.malloc
  real_calloc := fun h c s => if c * s < 2 ^ 64 then Bump.malloc h (c * s) else (NULL, h)
  real_realloc := Bump.realloc
  real_free := Bump.free
  usable := Bump.usable
  fopen_ok := true
  fopen_heap := fun h => h
  fprintf_heap := fun h _ => h
  fmt_p := glibc_fmt_p

/-- Process start: empty heap from address 4096, log not yet opened. -/
def start : World Bump :=
  { heap := { next := 4096, live := [] }, log := none, opens := 0, trace := [] }

/-- Two threads, each with one allocate and one release to log. -/
def two_threads : List Thread :=
  [{ pc := .l29, todo := [⟨"+", "m", 4096, 100⟩, ⟨"-", "f", 4096, 104⟩] },
   { pc := .l29, todo := [⟨"+", "m", 8192, 50⟩, ⟨"-", "f", 8192, 56⟩] }]

/-- State after `malloc(100)` from `start` on the demo platform. -/
def after_malloc_100 : World Bump :=
  { heap := { next := 8816, live := [(4704, 4096), (4216, 472), (4096, 104)] },
    log := some [header, "+,m,0x1000,100\n"],
    opens := 1,
    trace := [Call.real_malloc 100, Call.write_mem_log "+" "m" 4096 100] }

/-- State after `malloc(50)` from `start` on the demo platform: the block is 56 bytes. -/
def after_malloc_50 : World Bump :=
  { heap := { next := 8768, live := [(4656, 4096), (4168, 472), (4096, 56)] },
    log := some [header, "+,m,0x1000,50\n"],
    opens := 1,
    trace := [Call.real_malloc 50, Call.write_mem_log "+" "m" 4096 50] }

/-! ## The log writer -/

theorem write_mem_log_some (E : Env σ) (operation caller : String) (ptr : Ptr) (size : Nat)
    (w : World σ) (h : can_log E w = true) :
    write_mem_log E operation caller ptr size w =
      some { heap := emit_heap E w.heap w.log,
             log := some (stream_rows w ++ [row E operation caller ptr size]),
             opens := opens_after w,
             trace := w.trace ++ [Call.write_mem_log operation caller ptr size] } := by
  obtain ⟨heap, log, opens, trace⟩ := w
  cases log with
  | none =>
      have hok : E.fopen_ok = true := by simpa [can_log] using h
      simp [write_mem_log, fopen, fprintf, stream_rows, opens_after, emit_heap, hok]
  | some rows =>
      simp [write_mem_log, fprintf, stream_rows, opens_after, emit_heap]

theorem write_mem_log_none (E : Env σ) (operation caller : String) (ptr : Ptr) (size : Nat)
    (w : World σ) (h : can_log E w = false) :
    write_mem_log E operation caller ptr size w = none := by
  obtain ⟨heap, log, opens, trace⟩ := w
  cases log with
  | none =>
      have hok : E.fopen_ok = false := by simpa [can_log] using h
      simp [write_mem_log, fopen, fprintf, hok]
  | some rows => simp [can_log] at h

/-! ## The four wrappers -/

theorem wrap_malloc_some (E : Env σ) (size : Nat) (w : World σ) (h : can_log E w = true) :
    __wrap_malloc E size w =
      some ((E.real_malloc w.heap size).1, op_world E (.malloc size) w) := by
  have hc : can_log E (__real_malloc E size w).2 = true := by
    simpa [can_log, __real_malloc] using h
  unfold __wrap_malloc
  simp only [write_mem_log_some E _ _ _ _ _ hc, Option.bind_eq_bind, Option.some_bind]
  simp [__real_malloc, stream_rows, opens_after, op_world, op_heap, op_rows, op_trace]

theorem wrap_calloc_some (E : Env σ) (nitems size : Nat) (w : World σ)
    (h : can_log E w = true) :
    __wrap_calloc E nitems size w =
      some ((E.real_calloc w.heap nitems size).1, op_world E (.calloc nitems size) w) := by
  have hc : can_log E (__real_calloc E nitems size w).2 = true := by
    simpa [can_log, __real_calloc] using h
  unfold __wrap_calloc
  simp only [write_mem_log_some E _ _ _ _ _ hc, Option.bind_eq_bind, Option.some_bind]
  simp [__real_calloc, stream_rows, opens_after, op_world, op_heap, op_rows, op_trace]

theorem wrap_free_some (E : Env σ) (ptr : Ptr) (w : World σ) (h : can_log E w = true) :
    __wrap_free E ptr w = some (op_world E (.free ptr) w) := by
  have hc : can_log E (MSIZE E w ptr).2 = true := by
    simpa [can_log, MSIZE] using h
  unfold __wrap_free
  simp only [write_mem_log_some E _ _ _ _ _ hc, Option.bind_eq_bind, Option.some_bind]
  simp [MSIZE, __real_free, stream_rows, opens_after, op_world, op_heap, op_rows, op_trace]

theorem wrap_realloc_some (E : Env σ) (ptr : Ptr) (size : Nat) (w : World σ)
    (h : can_log E w = true) :
    __wrap_realloc E ptr size w =
      some ((E.real_realloc (emit_heap E w.heap w.log) ptr size).1,
            op_world E (.realloc ptr size) w) := by
  have hc : can_log E (MSIZE E w ptr).2 = true := by
    simpa [can_log, MSIZE] using h
  unfold __wrap_realloc
  simp only [write_mem_log_some E _ _ _ _ _ hc, Option.bind_eq_bind, Option.some_bind]
  rw [write_mem_log_some]
  · simp [MSIZE, __real_realloc, stream_rows, opens_after, op_world, op_heap, op_rows,
      op_trace, emit_heap]
  · simp [can_log, __real_realloc]

theorem wrap_malloc_none (E : Env σ) (size : Nat) (w : World σ) (h : can_log E w = false) :
    __wrap_malloc E size w = none := by
  have hc : can_log E (__real_malloc E size w).2 = false := by
    simpa [can_log, __real_malloc] using h
  unfold __wrap_malloc
  simp only [write_mem_log_none E _ _ _ _ _ hc, Option.bind_eq_bind, Option.none_bind]

theorem wrap_calloc_none (E : Env σ) (nitems size : Nat) (w : World σ)
    (h : can_log E w = false) : __wrap_calloc E nitems size w = none := by
  have hc : can_log E (__real_calloc E nitems size w).2 = false := by
    simpa [can_log, __real_calloc] using h
  unfold __wrap_calloc
  simp only [write_mem_log_none E _ _ _ _ _ hc, Option.bind_eq_bind, Option.none_bind]

theorem wrap_realloc_none (E : Env σ) (ptr : Ptr) (size : Nat) (w : World σ)
    (h : can_log E w = false) : __wrap_realloc E ptr size w = none := by
  have hc : can_log E (MSIZE E w ptr).2 = false := by
    simpa [can_log, MSIZE] using h
  unfold __wrap_realloc
  simp only [write_mem_log_none E _ _ _ _ _ hc, Option.bind_eq_bind, Option.none_bind]

theorem wrap_free_none (E : Env σ) (ptr : Ptr) (w : World σ) (h : can_log E w = false) :
    __wrap_free E ptr w = none := by
  have hc : can_log E (MSIZE E w ptr).2 = false := by
    simpa [can_log, MSIZE] using h
  unfold __wrap_free
  simp only [write_mem_log_none E _ _ _ _ _ hc, Option.bind_eq_bind, Option.none_bind]

/-! ## Sequences of calls -/

theorem wrap_step_some (E : Env σ) (op : Op) (w : World σ) (h : can_log E w = true) :
    wrap_step E op w = some (op_result E op w, op_world E op w) := by
  cases op with
  | malloc size =>
      simp [wrap_step, real_step, op_result, call_heap, wrap_malloc_some E size w h]
  | calloc nitems size =>
      simp [wrap_step, real_step, op_result, call_heap, wrap_calloc_some E nitems size w h]
  | realloc ptr size =>
      simp [wrap_step, real_step, op_result, call_heap, wrap_realloc_some E ptr size w h]
  | free ptr => simp [wrap_step, real_step, op_result, call_heap, wrap_free_some E ptr w h]

theorem op_world_can_log (E : Env σ) (op : Op) (w : World σ) :
    can_log E (op_world E op w) = true := by
  simp [can_log, op_world]

theorem run_wrapped_some (E : Env σ) (ops : List Op) :
    ∀ w : World σ, can_log E w = true →
      ∃ w', run_wrapped E ops w = some (results_of E ops w, w') ∧
        w'.heap = heap_of E ops w ∧
        w'.trace = w.trace ++ trace_of E ops w ∧
        (ops ≠ [] → w'.log = some (stream_rows w ++ rows_of E ops w) ∧
          w'.opens = opens_after w) := by
  induction ops with
  | nil =>
      intro w _
      exact ⟨w, by simp [run_wrapped, results_of], by simp [heap_of], by simp [trace_of],
        fun hne => absurd rfl hne⟩
  | cons op ops ih =>
      intro w hc
      obtain ⟨w', hrun, hheap, htrace, hlog⟩ := ih (op_world E op w) (op_world_can_log E op w)
      refine ⟨w', ?_, ?_, ?_, fun _ => ?_⟩
      · simp [run_wrapped, wrap_step_some E op w hc, hrun, results_of]
      · simpa [heap_of] using hheap
      · simp [htrace, trace_of, op_world]
      · cases ops with
        | nil =>
            simp only [run_wrapped, Option.some.injEq, Prod.mk.injEq] at hrun
            rw [← hrun.2]
            simp [op_world, rows_of]
        | cons op2 ops2 =>
            obtain ⟨hl, ho⟩ := hlog (by simp)
            rw [hl, ho]
            simp [op_world, rows_of, stream_rows, opens_after]

theorem trace_of_real (E : Env σ) (ops : List Op) :
    ∀ w : World σ, (trace_of E ops w).filter Call.is_real = ops.map Op.real_call := by
  induction ops with
  | nil => intro w; simp [trace_of]
  | cons op ops ih =>
      intro w
      cases op <;> simp [trace_of, op_trace, ih, Call.is_real, Op.real_call]

theorem results_of_length (E : Env σ) (ops : List Op) :
    ∀ w : World σ, (results_of E ops w).length = ops.length := by
  induction ops with
  | nil => intro w; simp [results_of]
  | cons op ops ih => intro w; simp [results_of, ih]

theorem emit_heap_quiet (E : Env σ) (hq : quiet_stdio E) (h : σ) (log : Option (List String)) :
    emit_heap E h log = h := by
  cases log <;> simp [emit_heap, hq.1, hq.2]

theorem op_quiet (E : Env σ) (hq : quiet_stdio E) (op : Op) (w : World σ) :
    op_result E op w = (real_step E op w.heap).1 ∧
      (op_world E op w).heap = (real_step E op w.heap).2 := by
  cases op <;>
    simp [op_result, op_world, op_heap, call_heap, real_step, emit_heap_quiet E hq, hq.2]

theorem run_quiet (E : Env σ) (hq : quiet_stdio E) (ops : List Op) :
    ∀ w : World σ, results_of E ops w = (run_real E ops w.heap).1 ∧
      heap_of E ops w = (run_real E ops w.heap).2 := by
  induction ops with
  | nil => intro w; simp [results_of, heap_of, run_real]
  | cons op ops ih =>
      intro w
      obtain ⟨hr, hh⟩ := op_quiet E hq op w
      obtain ⟨ihr, ihh⟩ := ih (op_world E op w)
      simp [results_of, heap_of, run_real, hr, ihr, ihh, hh]

/-! ## Rows and the header -/

theorem row_data (E : Env σ) (operation caller : String) (ptr : Ptr) (size : Nat) :
    (row E operation caller ptr size).data =
      operation.data ++ ',' :: (caller.data ++ ',' :: ((E.fmt_p ptr).data ++
        ',' :: ((fmt_d size).data ++ ['\n']))) := by
  simp [row, String.data_append]

theorem plus_row_ne_header (E : Env σ) (caller : String) (ptr : Ptr) (size : Nat) :
    header ≠ row E "+" caller ptr size := by
  intro h
  have hd := congrArg String.data h
  rw [row_data] at hd
  simp [header] at hd

theorem minus_row_ne_header (E : Env σ) (caller : String) (ptr : Ptr) (size : Nat) :
    header ≠ row E "-" caller ptr size := by
  intro h
  have hd := congrArg String.data h
  rw [row_data] at hd
  simp [header] at hd

theorem header_not_in_rows (E : Env σ) (ops : List Op) :
    ∀ w : World σ, header ∉ rows_of E ops w := by
  induction ops with
  | nil => intro w; simp [rows_of]
  | cons op ops ih =>
      intro w
      cases op <;>
        simp [rows_of, op_rows, ih, plus_row_ne_header, minus_row_ne_header]

theorem rows_of_length (E : Env σ) (ops : List Op) :
    ∀ w : World σ, (rows_of E ops w).length =
      count_malloc ops + count_calloc ops + count_free ops + 2 * count_realloc ops := by
  induction ops with
  | nil => intro w; simp [rows_of, count_malloc, count_calloc, count_free, count_realloc]
  | cons op ops ih =>
      intro w
      have ih' := ih (op_world E op w)
      simp only [count_malloc, count_calloc, count_free, count_realloc] at ih' ⊢
      cases op <;> simp [rows_of, op_rows, ih', List.countP_cons] <;> omega

/-! ## Rows are lines -/

theorem digitChar_ne_newline (k : Nat) : Nat.digitChar k ≠ '\n' := by
  rcases Nat.lt_or_ge k 16 with h | h
  · interval_cases k <;> decide
  · have hstar : Nat.digitChar k = '*' := by
      unfold Nat.digitChar
      iterate 16 rw [if_neg (by omega)]
    rw [hstar]
    decide

theorem toDigitsCore_no_newline (b : Nat) :
    ∀ (fuel n : Nat) (ds : List Char), '\n' ∉ ds → '\n' ∉ Nat.toDigitsCore b fuel n ds := by
  intro fuel
  induction fuel with
  | zero => intro n ds h; simpa [Nat.toDigitsCore] using h
  | succ fuel ih =>
      intro n ds h
      have hd : '\n' ∉ Nat.digitChar (n % b) :: ds := by
        simp only [List.mem_cons, not_or]
        exact ⟨fun e => digitChar_ne_newline _ e.symm, h⟩
      unfold Nat.toDigitsCore
      simp only
      split_ifs
      · exact hd
      · exact ih _ _ hd

theorem toDigits_no_newline (b n : Nat) : '\n' ∉ Nat.toDigits b n := by
  unfold Nat.toDigits
  exact toDigitsCore_no_newline b _ _ _ (by simp)

theorem repr_no_newline (n : Nat) : '\n' ∉ (toString n).data := by
  show '\n' ∉ (Nat.repr n).data
  unfold Nat.repr
  simpa [List.asString] using toDigits_no_newline 10 n

theorem fmt_d_no_newline (size : Nat) : '\n' ∉ (fmt_d size).data := by
  unfold fmt_d
  simp only
  split_ifs
  · exact repr_no_newline _
  · rw [String.data_append, List.mem_append, not_or]
    exact ⟨by decide, repr_no_newline _⟩

theorem glibc_fmt_p_no_newline (p : Ptr) : '\n' ∉ (glibc_fmt_p p).data := by
  unfold glibc_fmt_p
  split_ifs
  · decide
  · rw [String.data_append, List.mem_append, not_or]
    exact ⟨by decide, toDigits_no_newline 16 p⟩

theorem row_is_line (E : Env σ) (operation caller : String) (ptr : Ptr) (size : Nat)
    (ho : '\n' ∉ operation.data) (hc : '\n' ∉ caller.data)
    (hp : '\n' ∉ (E.fmt_p ptr).data) : is_line (row E operation caller ptr size) := by
  have hd := fmt_d_no_newline size
  constructor
  · rw [row_data]
    simp [List.count_append, List.count_cons, List.count_eq_zero_of_not_mem, ho, hc, hp, hd]
  · have hrow : (row E operation caller ptr size).data =
        (operation.data ++ ',' :: (caller.data ++ ',' :: ((E.fmt_p ptr).data ++
          ',' :: (fmt_d size).data))) ++ ['\n'] := by
      simp [row, String.data_append]
    rw [hrow, List.getLast?_concat]

theorem rows_of_lines (E : Env σ) (hp : ∀ p, '\n' ∉ (E.fmt_p p).data) (ops : List Op) :
    ∀ w : World σ, ∀ line ∈ rows_of E ops w, is_line line := by
  induction ops with
  | nil => intro w line hl; simp [rows_of] at hl
  | cons op ops ih =>
      intro w line hl
      simp only [rows_of, List.mem_append] at hl
      rcases hl with hl | hl
      · cases op <;> simp only [op_rows, List.mem_cons, List.mem_singleton,
          List.not_mem_nil, or_false] at hl
        · subst hl; exact row_is_line E _ _ _ _ (by decide) (by decide) (hp _)
        · subst hl; exact row_is_line E _ _ _ _ (by decide) (by decide) (hp _)
        · rcases hl with hl | hl <;> subst hl <;>
            exact row_is_line E _ _ _ _ (by decide) (by decide) (hp _)
        · subst hl; exact row_is_line E _ _ _ _ (by decide) (by decide) (hp _)
      · exact ih _ line hl

theorem header_is_line : is_line header := by
  constructor <;> decide

/-! ## The evaluation states are reachable -/

theorem after_malloc_100_reached :
    __wrap_malloc (demo true) 100 start = some (4096, after_malloc_100) := by
  decide

theorem after_malloc_50_reached :
    __wrap_malloc (demo true) 50 start = some (4096, after_malloc_50) := by
  decide

/-! ## Requests that do not overlap -/

theorem whole_call (E : Env σ) (i : Nat) (ts ts' : List Thread) (ev : Event) (w : World σ)
    (hp : pick i ts = some (ev, ts')) :
    run_sched E (call_sched w i) ts w =
      (write_mem_log E ev.operation ev.caller ev.ptr ev.size w).map fun w' => (ts', w') := by
  unfold pick at hp
  cases hti : ts[i]? with
  | none => simp [hti] at hp
  | some t =>
      simp only [hti] at hp
      obtain ⟨pc, todo⟩ := t
      have hi : i < ts.length := by
        obtain ⟨hlt, _⟩ := List.getElem?_eq_some.mp hti
        exact hlt
      cases pc <;> cases todo <;> simp at hp
      obtain ⟨hev, hts⟩ := hp
      subst hev hts
      obtain ⟨heap, log, opens, trace⟩ := w
      cases log with
      | none =>
          cases hok : E.fopen_ok <;>
            simp [call_sched, run_sched, hti, step_thread, hi, List.set_set, write_mem_log,
              fopen, fprintf, hok, Event.line]
      | some rows =>
          simp [call_sched, run_sched, hti, step_thread, hi, List.set_set, write_mem_log,
            fprintf, Event.line]

theorem run_serial_open (E : Env σ) (order : List Nat) :
    ∀ (ts : List Thread) (w : World σ) (rows : List String) (evs : List Event),
      w.log = some rows → picks order ts = some evs →
      ∃ ts' w', run_serial E order ts w = some (ts', w') ∧
        w'.log = some (rows ++ evs.map (Event.line E)) ∧ w'.opens = w.opens ∧
        evs.length = order.length := by
  induction order with
  | nil =>
      intro ts w rows evs hlog hp
      simp only [picks, Option.some.injEq] at hp
      subst hp
      exact ⟨ts, w, by simp [run_serial], by simp [hlog], rfl, rfl⟩
  | cons i order ih =>
      intro ts w rows evs hlog hp
      simp only [picks, Option.bind_eq_bind] at hp
      cases hpk : pick i ts with
      | none => simp [hpk] at hp
      | some r =>
          obtain ⟨ev, ts1⟩ := r
          simp only [hpk, Option.some_bind, Option.map_eq_some'] at hp
          obtain ⟨evs1, hp1, hevs⟩ := hp
          subst hevs
          have hc : can_log E w = true := by simp [can_log, hlog]
          have hs : stream_rows w = rows := by simp [stream_rows, hlog]
          have ho : opens_after w = w.opens := by simp [opens_after, hlog]
          obtain ⟨ts', w', hrun, hl, hop, hlen⟩ :=
            ih ts1 _ (rows ++ [ev.line E]) evs1
              (show (World.mk (emit_heap E w.heap w.log) (some (rows ++ [ev.line E])) w.opens
                (w.trace ++ [Call.write_mem_log ev.operation ev.caller ev.ptr ev.size])).log =
                  some (rows ++ [ev.line E]) from rfl) hp1
          refine ⟨ts', w', ?_, ?_, ?_, ?_⟩
          · simp only [run_serial, whole_call E i ts ts1 ev w hpk,
              write_mem_log_some E _ _ _ _ w hc, Option.map_some', Option.some_bind, hs, ho]
            exact hrun
          · simp [hl]
          · simp [hop]
          · simp [hlen]

theorem line_ne_header (E : Env σ) (ev : Event)
    (hop : ev.operation = "+" ∨ ev.operation = "-") : header ≠ ev.line E := by
  obtain ⟨operation, caller, ptr, size⟩ := ev
  simp only at hop
  rcases hop with hop | hop <;> subst hop
  · exact plus_row_ne_header E caller ptr size
  · exact minus_row_ne_header E caller ptr size

/-! ## Claims -/

/-- C1 (transparency), as amended. Whatever the real allocator and the stream
library do and whatever the log state is, as long as the log stream is open
or can be opened: each wrapper returns normally with exactly the value its
one call to the real counterpart returned, that call being made with the
caller's arguments unchanged; over a sequence of calls the calls the wrappers
make to the real allocator are exactly the caller's calls, in order; and when
the stream functions leave the allocator state as it is, the results and the
final allocator state are those of the same calls made on the real allocator
directly. -/
theorem wrappers_transparent (E : Env σ) (ops : List Op) (w : World σ)
    (h : can_log E w = true) :
    (∀ (op : Op) (v : World σ), can_log E v = true →
      ∃ v', wrap_step E op v = some ((real_step E op (call_heap E op v)).1, v') ∧
        v'.trace.filter Call.is_real = v.trace.filter Call.is_real ++ [op.real_call]) ∧
    ∃ w', run_wrapped E ops w = some (results_of E ops w, w') ∧
      (results_of E ops w).length = ops.length ∧
      w'.trace.filter Call.is_real = w.trace.filter Call.is_real ++ ops.map Op.real_call ∧
      (quiet_stdio E →
        results_of E ops w = (run_real E ops w.heap).1 ∧
        w'.heap = (run_real E ops w.heap).2) := by
  constructor
  · intro op v hv
    refine ⟨op_world E op v, by rw [wrap_step_some E op v hv]; rfl, ?_⟩
    have ht := trace_of_real E [op] v
    simp only [trace_of, List.append_nil, List.map_cons, List.map_nil] at ht
    simp [op_world, ht]
  · obtain ⟨w', hrun, hheap, htrace, _⟩ := run_wrapped_some E ops w h
    refine ⟨w', hrun, results_of_length E ops w, ?_, fun hq => ?_⟩
    · simp [htrace, trace_of_real]
    · exact ⟨(run_quiet E hq ops w).1, by rw [hheap]; exact (run_quiet E hq ops w).2⟩

theorem wrappers_transparent_witness :
    can_log (demo true) start = true ∧
    (∃ w', run_wrapped (demo true)
        [.malloc 100, .calloc 10 4, .malloc 2000000, .realloc 4096 250, .free 8816] start =
          some ([.ptr 4096, .ptr 8816, .ptr 0, .ptr 8872, .void], w') ∧
      w'.trace.filter Call.is_real =
        [Call.real_malloc 100, Call.real_calloc 10 4, Call.real_malloc 2000000,
         Call.real_realloc 4096 250, Call.real_free 8816]) ∧
    (∃ w', run_wrapped quiet [.malloc 100, .realloc 4096 250, .free 4216] start =
          some ((run_real quiet [.malloc 100, .realloc 4096 250, .free 4216] start.heap).1, w') ∧
      (run_real quiet [.malloc 100, .realloc 4096 250, .free 4216] start.heap).1 =
        [.ptr 4096, .ptr 4216, .void] ∧
      w'.heap = { next := 4488, live := [] }) := by
  refine ⟨by decide, ?_, ?_⟩
  · obtain ⟨w', hrun, _, htrace, _⟩ :=
      (wrappers_transparent (demo true)
        [.malloc 100, .calloc 10 4, .malloc 2000000, .realloc 4096 250, .free 8816] start
        (by decide)).2
    refine ⟨w', ?_, ?_⟩
    · rw [hrun]
      have hres : results_of (demo true)
          [.malloc 100, .calloc 10 4, .malloc 2000000, .realloc 4096 250, .free 8816] start =
          [.ptr 4096, .ptr 8816, .ptr 0, .ptr 8872, .void] := by decide
      rw [hres]
    · rw [htrace]
      decide
  · obtain ⟨w', hrun, _, _, hq⟩ :=
      (wrappers_transparent quiet [.malloc 100, .realloc 4096 250, .free 4216] start
        (by decide)).2
    obtain ⟨hres, hheap⟩ := hq ⟨fun _ => rfl, fun _ _ => rfl⟩
    refine ⟨w', ?_, by decide, ?_⟩
    · rw [hrun, hres]
    · rw [hheap]
      decide

/-- C1, counterexample to the claim as stated. On a platform whose stream
library takes the stream object and its buffer from the same heap, two
`malloc(100)` calls through the wrappers return 0x1000 and 0x2270, while the
same two calls on the real allocator directly return 0x1000 and 0x1078. -/
theorem stdio_shifts_pointers :
    (run_wrapped (demo true) [.malloc 100, .malloc 100] start).map Prod.fst =
      some [.ptr 4096, .ptr 8816] ∧
    (run_real (demo true) [.malloc 100, .malloc 100] start.heap).1 =
      [.ptr 4096, .ptr 4216] ∧
    (run_wrapped (demo true) [.malloc 100, .malloc 100] start).map Prod.fst ≠
      some (run_real (demo true) [.malloc 100, .malloc 100] start.heap).1 := by
  decide

/-- C2 (resize). With the log stream open or openable, `__wrap_realloc(p, n)`
returns `q`, the result of `__real_realloc(p, n)`, after making exactly these
calls in this order: the usable-size query on `p`, the emission of
`("-", "r", p, usable p)`, the real resize, the emission of `("+", "r", q, n)`.
These are its only two emissions, and the second carries `q` and `n` whatever
`q` is, `NULL` included. -/
theorem wrap_realloc_order (E : Env σ) (p : Ptr) (n : Nat) (w : World σ)
    (h : can_log E w = true) :
    __wrap_realloc E p n w =
      some ((E.real_realloc (emit_heap E w.heap w.log) p n).1,
            { heap := E.fprintf_heap (E.real_realloc (emit_heap E w.heap w.log) p n).2
                (stream_rows w ++ [row E "-" "r" p (malloc_usable_size E w.heap p)]),
              log := some (stream_rows w ++
                [row E "-" "r" p (malloc_usable_size E w.heap p),
                 row E "+" "r" (E.real_realloc (emit_heap E w.heap w.log) p n).1 n]),
              opens := opens_after w,
              trace := w.trace ++
                [Call.msize p,
                 Call.write_mem_log "-" "r" p (malloc_usable_size E w.heap p),
                 Call.real_realloc p n,
                 Call.write_mem_log "+" "r"
                   (E.real_realloc (emit_heap E w.heap w.log) p n).1 n] }) := by
  simpa [op_world, op_heap, op_rows, op_trace] using wrap_realloc_some E p n w h

theorem wrap_realloc_order_witness :
    can_log (demo true) after_malloc_100 = true ∧
    (__wrap_realloc (demo true) 4096 2000000 after_malloc_100).map
        (fun r => (r.1, r.2.trace, r.2.log)) =
      some (NULL,
            [Call.real_malloc 100, Call.write_mem_log "+" "m" 4096 100,
             Call.msize 4096, Call.write_mem_log "-" "r" 4096 104,
             Call.real_realloc 4096 2000000, Call.write_mem_log "+" "r" NULL 2000000],
            some [header, "+,m,0x1000,100\n", "-,r,0x1000,104\n", "+,r,(nil),2000000\n"]) := by
  refine ⟨by decide, ?_⟩
  rw [wrap_realloc_order (demo true) 4096 2000000 after_malloc_100 (by decide)]
  decide

/-- C4 (release). With the log stream open or openable, `__wrap_free(p)`
makes exactly these calls in this order: the usable-size query on `p`, the
emission of `("-", "f", p, usable p)`, and `__real_free(p)`. The size of the
event is the one the query returned on the allocator state before the release,
which for a non-null `p` is the usable size the allocator holds for the block. -/
theorem wrap_free_order (E : Env σ) (p : Ptr) (w : World σ) (h : can_log E w = true) :
    __wrap_free E p w =
      some { heap := E.real_free (emit_heap E w.heap w.log) p,
             log := some (stream_rows w ++ [row E "-" "f" p (malloc_usable_size E w.heap p)]),
             opens := opens_after w,
             trace := w.trace ++
               [Call.msize p,
                Call.write_mem_log "-" "f" p (malloc_usable_size E w.heap p),
                Call.real_free p] } ∧
    (p ≠ NULL → malloc_usable_size E w.heap p = E.usable w.heap p) := by
  refine ⟨?_, fun hp => by simp [malloc_usable_size, hp]⟩
  simpa [op_world, op_heap, op_rows, op_trace] using wrap_free_some E p w h

theorem wrap_free_order_witness :
    can_log (demo true) after_malloc_50 = true ∧
    (__wrap_free (demo true) 4096 after_malloc_50).map (fun r => (r.heap, r.trace, r.log)) =
      some ({ next := 8768, live := [(4656, 4096), (4168, 472)] },
            [Call.real_malloc 50, Call.write_mem_log "+" "m" 4096 50,
             Call.msize 4096, Call.write_mem_log "-" "f" 4096 56, Call.real_free 4096],
            some [header, "+,m,0x1000,50\n", "-,f,0x1000,56\n"]) := by
  refine ⟨by decide, ?_⟩
  rw [(wrap_free_order (demo true) 4096 after_malloc_50 (by decide)).1]
  decide

/-- C5 (allocate). With the log stream open or openable, `__wrap_malloc(n)`
first calls `__real_malloc(n)`, giving `q`, then emits exactly one event
`("+", "m", q, n)` with the requested size, and returns `q`; this holds for
every `q`, `NULL` included. -/
theorem wrap_malloc_event (E : Env σ) (n : Nat) (w : World σ) (h : can_log E w = true) :
    __wrap_malloc E n w =
      some ((E.real_malloc w.heap n).1,
            { heap := emit_heap E (E.real_malloc w.heap n).2 w.log,
              log := some (stream_rows w ++ [row E "+" "m" (E.real_malloc w.heap n).1 n]),
              opens := opens_after w,
              trace := w.trace ++
                [Call.real_malloc n,
                 Call.write_mem_log "+" "m" (E.real_malloc w.heap n).1 n] }) := by
  simpa [op_world, op_heap, op_rows, op_trace] using wrap_malloc_some E n w h

theorem wrap_malloc_event_witness :
    can_log (demo true) start = true ∧
    (__wrap_malloc (demo true) 2000000 start).map (fun r => (r.1, r.2.trace, r.2.log)) =
      some (NULL,
            [Call.real_malloc 2000000, Call.write_mem_log "+" "m" NULL 2000000],
            some [header, "+,m,(nil),2000000\n"]) := by
  refine ⟨by decide, ?_⟩
  rw [wrap_malloc_event (demo true) 2000000 start (by decide)]
  decide

/-- C8 (null safety). With the log stream open or openable, `__wrap_free(NULL)`
and `__wrap_realloc(NULL, k)` return normally for every `k`; the usable-size
query on the null pointer gives 0, so the first emits `("-", "f", NULL, 0)`
and the second emits `("-", "r", NULL, 0)` and then `("+", "r", q, k)` with
`q` the result of `__real_realloc(NULL, k)`. -/
theorem null_pointer_safe (E : Env σ) (k : Nat) (w : World σ) (h : can_log E w = true) :
    __wrap_free E NULL w =
      some { heap := E.real_free (emit_heap E w.heap w.log) NULL,
             log := some (stream_rows w ++ [row E "-" "f" NULL 0]),
             opens := opens_after w,
             trace := w.trace ++
               [Call.msize NULL, Call.write_mem_log "-" "f" NULL 0, Call.real_free NULL] } ∧
    __wrap_realloc E NULL k w =
      some ((E.real_realloc (emit_heap E w.heap w.log) NULL k).1,
            { heap := E.fprintf_heap (E.real_realloc (emit_heap E w.heap w.log) NULL k).2
                (stream_rows w ++ [row E "-" "r" NULL 0]),
              log := some (stream_rows w ++
                [row E "-" "r" NULL 0,
                 row E "+" "r" (E.real_realloc (emit_heap E w.heap w.log) NULL k).1 k]),
              opens := opens_after w,
              trace := w.trace ++
                [Call.msize NULL, Call.write_mem_log "-" "r" NULL 0,
                 Call.real_realloc NULL k,
                 Call.write_mem_log "+" "r"
                   (E.real_realloc (emit_heap E w.heap w.log) NULL k).1 k] }) := by
  constructor
  · simpa [op_world, op_heap, op_rows, op_trace, malloc_usable_size]
      using wrap_free_some E NULL w h
  · simpa [op_world, op_heap, op_rows, op_trace, malloc_usable_size]
      using wrap_realloc_some E NULL k w h

theorem null_pointer_safe_witness :
    can_log (demo true) start = true ∧
    (__wrap_free (demo true) NULL start).map (fun r => (r.trace, r.log)) =
      some ([Call.msize NULL, Call.write_mem_log "-" "f" NULL 0, Call.real_free NULL],
            some [header, "-,f,(nil),0\n"]) ∧
    (__wrap_realloc (demo true) NULL 32 start).map (fun r => (r.1, r.2.trace, r.2.log)) =
      some (8696,
            [Call.msize NULL, Call.write_mem_log "-" "r" NULL 0,
             Call.real_realloc NULL 32, Call.write_mem_log "+" "r" 8696 32],
            some [header, "-,r,(nil),0\n", "+,r,0x21f8,32\n"]) := by
  refine ⟨by decide, ?_, ?_⟩
  · rw [(null_pointer_safe (demo true) 32 start (by decide)).1]
    decide
  · rw [(null_pointer_safe (demo true) 32 start (by decide)).2]
    decide

/-- C9 (open failure). When the log is unopened and the destination cannot be
opened, `write_mem_log` does not return: it faults on the write that follows
the failed `fopen`, whatever the event is. Hence none of the four wrappers
returns to its caller either. -/
theorem open_failure_fatal (E : Env σ) (w : World σ) (hlog : w.log = none)
    (hopen : E.fopen_ok = false) :
    (∀ operation caller ptr size, write_mem_log E operation caller ptr size w = none) ∧
    (∀ size, __wrap_malloc E size w = none) ∧
    (∀ nitems size, __wrap_calloc E nitems size w = none) ∧
    (∀ ptr size, __wrap_realloc E ptr size w = none) ∧
    (∀ ptr, __wrap_free E ptr w = none) := by
  have h : can_log E w = false := by simp [can_log, hlog, hopen]
  exact ⟨fun _ _ _ _ => write_mem_log_none E _ _ _ _ w h,
    fun _ => wrap_malloc_none E _ w h, fun _ _ => wrap_calloc_none E _ _ w h,
    fun _ _ => wrap_realloc_none E _ _ w h, fun _ => wrap_free_none E _ w h⟩

theorem open_failure_fatal_witness :
    start.log = none ∧ (demo false).fopen_ok = false ∧
    write_mem_log (demo false) "+" "m" 4096 100 start = none ∧
    __wrap_malloc (demo false) 100 start = none ∧
    __wrap_free (demo false) NULL start = none :=
  ⟨rfl, rfl,
   (open_failure_fatal (demo false) start rfl rfl).1 "+" "m" 4096 100,
   (open_failure_fatal (demo false) start rfl rfl).2.1 100,
   (open_failure_fatal (demo false) start rfl rfl).2.2.2.2 NULL⟩

/-- C3 (log content). For a non-empty sequence of calls made from the
unopened state with a destination that opens, the run returns normally and the
log is the header line followed by the data rows of the calls in call order
(one row for `malloc`, `calloc` and `free`, the RELEASE row then the ALLOCATE
row for `realloc`). The header occurs exactly once, the destination is opened
exactly once, and the log has
`1 + (#malloc + #calloc + #free + 2 * #realloc)` entries, each of which is one
line of text when the `%p` rendering contains no newline. -/
theorem log_content (E : Env σ) (ops : List Op) (w : World σ) (hne : ops ≠ [])
    (hlog : w.log = none) (hopen : E.fopen_ok = true) :
    ∃ w', (run_wrapped E ops w).map Prod.snd = some w' ∧
      w'.log = some (header :: rows_of E ops w) ∧
      (header :: rows_of E ops w).count header = 1 ∧
      w'.opens = w.opens + 1 ∧
      (header :: rows_of E ops w).length =
        1 + (count_malloc ops + count_calloc ops + count_free ops + 2 * count_realloc ops) ∧
      ((∀ p, '\n' ∉ (E.fmt_p p).data) →
        ∀ line ∈ header :: rows_of E ops w, is_line line) := by
  have hc : can_log E w = true := by simp [can_log, hopen]
  obtain ⟨w', hrun, _, _, hl⟩ := run_wrapped_some E ops w hc
  obtain ⟨hl1, hl2⟩ := hl hne
  refine ⟨w', by rw [hrun]; rfl, ?_, ?_, ?_, ?_, ?_⟩
  · simpa [stream_rows, hlog] using hl1
  · simp [List.count_cons, List.count_eq_zero_of_not_mem (header_not_in_rows E _ _)]
  · simpa [opens_after, hlog] using hl2
  · simp only [List.length_cons, rows_of_length]
    omega
  · intro hp line hmem
    rcases List.mem_cons.mp hmem with hmem | hmem
    · subst hmem; exact header_is_line
    · exact rows_of_lines E hp _ _ line hmem

theorem log_content_witness :
    [Op.malloc 100, .realloc 4096 250, .calloc 10 4, .free 8816] ≠ [] ∧
    start.log = none ∧ (demo true).fopen_ok = true ∧
    ∃ w', (run_wrapped (demo true)
        [.malloc 100, .realloc 4096 250, .calloc 10 4, .free 8816] start).map Prod.snd =
          some w' ∧
      w'.log = some
        ["op,caller,ptr,size\n", "+,m,0x1000,100\n", "-,r,0x1000,104\n", "+,r,0x2270,250\n",
         "+,c,0x2380,40\n", "-,f,0x2270,256\n"] ∧
      w'.opens = 1 ∧
      (6 : Nat) = 1 + (1 + 1 + 1 + 2 * 1) ∧
      ∀ line ∈ ["op,caller,ptr,size\n", "+,m,0x1000,100\n", "-,r,0x1000,104\n",
          "+,r,0x2270,250\n", "+,c,0x2380,40\n", "-,f,0x2270,256\n"], is_line line := by
  refine ⟨by decide, rfl, rfl, ?_⟩
  obtain ⟨w', hrun, hlog, _, hopens, _, hlines⟩ :=
    log_content (demo true) [.malloc 100, .realloc 4096 250, .calloc 10 4, .free 8816] start
      (by decide) rfl rfl
  have hrows : header :: rows_of (demo true)
      [.malloc 100, .realloc 4096 250, .calloc 10 4, .free 8816] start =
      ["op,caller,ptr,size\n", "+,m,0x1000,100\n", "-,r,0x1000,104\n", "+,r,0x2270,250\n",
       "+,c,0x2380,40\n", "-,f,0x2270,256\n"] := by decide
  refine ⟨w', hrun, ?_, hopens, by decide, ?_⟩
  · rw [hlog, hrows]
  · rw [← hrows]
    exact hlines glibc_fmt_p_no_newline

/-- C6 (zero-allocate), as amended. With the log stream open or openable,
`__wrap_calloc(c, s)` calls `__real_calloc(c, s)`, giving `q`, and emits
exactly one event `("+", "c", q, c * s mod 2 ^ bits)`: the recorded size is
the `size_t` product, which is the product of `c` and `s` whenever that is
below `2 ^ bits`. -/
theorem wrap_calloc_event (E : Env σ) (c s : Nat) (w : World σ) (h : can_log E w = true) :
    __wrap_calloc E c s w =
      some ((E.real_calloc w.heap c s).1,
            { heap := emit_heap E (E.real_calloc w.heap c s).2 w.log,
              log := some (stream_rows w ++
                [row E "+" "c" (E.real_calloc w.heap c s).1 (c * s % 2 ^ E.bits)]),
              opens := opens_after w,
              trace := w.trace ++
                [Call.real_calloc c s,
                 Call.write_mem_log "+" "c" (E.real_calloc w.heap c s).1
                   (c * s % 2 ^ E.bits)] }) ∧
    (c * s < 2 ^ E.bits → c * s % 2 ^ E.bits = c * s) := by
  refine ⟨?_, fun hlt => Nat.mod_eq_of_lt hlt⟩
  simpa [op_world, op_heap, op_rows, op_trace] using wrap_calloc_some E c s w h

theorem wrap_calloc_event_witness :
    can_log (demo true) start = true ∧
    (__wrap_calloc (demo true) 10 4 start).map (fun r => (r.1, r.2.trace, r.2.log)) =
      some (4096,
            [Call.real_calloc 10 4, Call.write_mem_log "+" "c" 4096 40],
            some [header, "+,c,0x1000,40\n"]) := by
  refine ⟨by decide, ?_⟩
  rw [(wrap_calloc_event (demo true) 10 4 start (by decide)).1]
  decide

/-- C6, counterexample to the claim as stated. On a 64-bit platform,
`__wrap_calloc(2^32, 2^32)` emits an event of size 0, not of size `2^32 * 2^32`. -/
theorem wrap_calloc_not_product :
    (__wrap_calloc (demo true) 4294967296 4294967296 start).map (fun r => r.2.trace) =
      some [Call.real_calloc 4294967296 4294967296, Call.write_mem_log "+" "c" NULL 0] ∧
    (__wrap_calloc (demo true) 4294967296 4294967296 start).map (fun r => r.2.trace) ≠
      some [Call.real_calloc 4294967296 4294967296,
            Call.write_mem_log "+" "c" NULL (4294967296 * 4294967296)] := by
  decide

/-- C7, evaluated at failing inputs. The size 2147483648 (2^31) is written to
the log as `-2147483648`, and the size 4294967336 (2^32 + 40) as `40`. -/
theorem size_field_truncated :
    (write_mem_log (demo true) "+" "m" 4096 2147483648 start).map (fun w => w.log) =
      some (some ["op,caller,ptr,size\n", "+,m,0x1000,-2147483648\n"]) ∧
    (write_mem_log (demo true) "+" "m" 4096 4294967336 start).map (fun w => w.log) =
      some (some ["op,caller,ptr,size\n", "+,m,0x1000,40\n"]) := by
  decide

/-- C10 (concurrent callers), as amended. `write_mem_log` holds no lock, so
its guarantees are those of requests that do not overlap: when the threads
named in `order` each run one whole call with no statement of another thread
in between, starting from the unopened state with a destination that opens,
every call returns, the destination is opened exactly once, and the log is
exactly one header row followed by one complete row per request in the order
the requests ran. With `N` threads each logging one allocate and one release
that is 1 header and `2N` data rows. -/
theorem serial_requests_log (E : Env σ) (order : List Nat) (ts : List Thread) (w : World σ)
    (evs : List Event) (hne : order ≠ []) (hp : picks order ts = some evs)
    (hops : ∀ ev ∈ evs, ev.operation = "+" ∨ ev.operation = "-")
    (hlog : w.log = none) (hopen : E.fopen_ok = true) :
    ∃ ts' w', run_serial E order ts w = some (ts', w') ∧
      w'.log = some (header :: evs.map (Event.line E)) ∧
      (header :: evs.map (Event.line E)).count header = 1 ∧
      w'.opens = w.opens + 1 ∧
      (header :: evs.map (Event.line E)).length = 1 + order.length := by
  cases order with
  | nil => exact absurd rfl hne
  | cons i order =>
      simp only [picks, Option.bind_eq_bind] at hp
      cases hpk : pick i ts with
      | none => simp [hpk] at hp
      | some r =>
          obtain ⟨ev, ts1⟩ := r
          simp only [hpk, Option.some_bind, Option.map_eq_some'] at hp
          obtain ⟨evs1, hp1, hevs⟩ := hp
          subst hevs
          have hc : can_log E w = true := by simp [can_log, hopen]
          have hs : stream_rows w = [header] := by simp [stream_rows, hlog]
          have ho : opens_after w = w.opens + 1 := by simp [opens_after, hlog]
          obtain ⟨ts', w', hrun, hl, hop, hlen⟩ :=
            run_serial_open E order ts1
              (World.mk (emit_heap E w.heap w.log) (some ([header] ++ [ev.line E]))
                (w.opens + 1)
                (w.trace ++ [Call.write_mem_log ev.operation ev.caller ev.ptr ev.size]))
              ([header] ++ [ev.line E]) evs1 rfl hp1
          have hnot : header ∉ (ev :: evs1).map (Event.line E) := by
            intro hmem
            obtain ⟨e, he, heq⟩ := List.mem_map.mp hmem
            exact line_ne_header E e (hops e he) heq.symm
          refine ⟨ts', w', ?_, ?_, ?_, ?_, ?_⟩
          · simp only [run_serial, whole_call E i ts ts1 ev w hpk,
              write_mem_log_some E _ _ _ _ w hc, Option.map_some', Option.some_bind, hs, ho]
            exact hrun
          · simp [hl]
          · rw [List.count_cons_self, List.count_eq_zero_of_not_mem hnot]
          · simp [hop]
          · simp [hlen]
            omega

theorem serial_requests_log_witness :
    [0, 1, 1, 0] ≠ [] ∧
    picks [0, 1, 1, 0] two_threads =
      some [⟨"+", "m", 4096, 100⟩, ⟨"+", "m", 8192, 50⟩, ⟨"-", "f", 8192, 56⟩,
            ⟨"-", "f", 4096, 104⟩] ∧
    start.log = none ∧ (demo true).fopen_ok = true ∧
    ∃ ts' w', run_serial (demo true) [0, 1, 1, 0] two_threads start = some (ts', w') ∧
      w'.log = some
        ["op,caller,ptr,size\n", "+,m,0x1000,100\n", "+,m,0x2000,50\n", "-,f,0x2000,56\n",
         "-,f,0x1000,104\n"] ∧
      w'.opens = 1 := by
  refine ⟨by decide, by decide, rfl, rfl, ?_⟩
  obtain ⟨ts', w', hrun, hlog, _, hopens, _⟩ :=
    serial_requests_log (demo true) [0, 1, 1, 0] two_threads start
      [⟨"+", "m", 4096, 100⟩, ⟨"+", "m", 8192, 50⟩, ⟨"-", "f", 8192, 56⟩,
       ⟨"-", "f", 4096, 104⟩]
      (by decide) (by decide) (by decide) rfl rfl
  refine ⟨ts', w', hrun, ?_, hopens⟩
  rw [hlog]
  decide

/-- C10, counterexample to the claim as stated. Two threads, each logging one
allocate and one release. When both test `log` before either opens it, both
open the destination and both write the header: the log has two header rows
and the destination is opened twice. When the second thread opens the
destination after the first has written its row, that row is lost: the log
has 1 header and 3 data rows instead of 4. -/
theorem racing_callers_break_log :
    (run_sched (demo true) [0, 1, 0, 1, 0, 1, 0, 1, 0, 0, 1, 1] two_threads start).map
        (fun r => (r.2.log, r.2.opens)) =
      some (some ["op,caller,ptr,size\n", "op,caller,ptr,size\n", "+,m,0x1000,100\n",
                  "+,m,0x2000,50\n", "-,f,0x1000,104\n", "-,f,0x2000,56\n"], 2) ∧
    (run_sched (demo true) [0, 1, 0, 0, 0, 1, 1, 1, 0, 0, 1, 1] two_threads start).map
        (fun r => (r.2.log, r.2.opens)) =
      some (some ["op,caller,ptr,size\n", "+,m,0x2000,50\n", "-,f,0x1000,104\n",
                  "-,f,0x2000,56\n"], 2) := by
  decide

end Memlog
